import Mathlib

/-!
Verification of the pachinball browser-automation verification scripts.

The repository consists of five Playwright scripts
(`verify_firewall_breach.py`, `verify_game.py`, `verify_lcd.py`,
`verify_reels.py`, `verify_slot.py`).  Each script drives a browser
session through a fixed sequence of steps (navigate, wait, click,
key-press, sleep, read text, screenshot) and is modelled here as a
computation in a trace monad `M`: the environment `Env` decides which
fallible steps raise and what text/visibility the page reports, and the
state `St` accumulates the list of successfully executed actions
(newest first).  Python `try/except` is `tryExcept`, `try/finally` and
`with`-blocks are `tryFin`, and an uncaught exception is the
`Outcome.raised` result.

Modelling conventions: Playwright page calls (`goto`, `wait_for_selector`,
`click`, `keyboard.press`, `inner_text`, `wait_for_timeout`, `screenshot`)
are fallible steps whose success is decided by `Env.fails` at the index of
the fallible call; `time.sleep`, `print`, `os.makedirs`, session set-up and
tear-down (`launch`, `new_page`, `set_viewport_size`, `browser.close`,
playwright start/stop) and `locator(..).is_visible()` are modelled as
infallible, matching the spec's focus on failures of scenario steps.
An action is recorded in the trace only when it succeeds.
-/

/-- One atomic automation action, as it appears in a run's trace. -/
inductive Event where
  | launch
  | newPage
  | setViewport (w h : Nat)
  | onConsole
  | goto (url : String)
  | waitForSelector (sel : String) (timeoutMs : Option Nat) (state : Option String)
  | click (sel : String) (forced : Bool)
  | pressKey (key : String)
  | sleepMs (ms : Nat)
  | waitForTimeout (ms : Nat)
  | readText (sel : String)
  | isVisible (sel : String)
  | screenshot (path : String)
  | printMsg (msg : String)
  | makedirs (dir : String)
  | browserClose
  | playwrightStop
deriving DecidableEq, Repr

/-- The environment a run executes against: which fallible step raises,
the HUD texts successive `inner_text` reads return, element visibility,
and the console messages collected by the time they are printed. -/
structure Env where
  fails : Nat → Bool
  texts : Nat → String
  visible : String → Bool
  consoleMsgs : List String

/-- Run state: the environment, the index of the next fallible call, the
index of the next `inner_text` read, and the reversed trace so far. -/
structure St where
  env : Env
  n : Nat
  k : Nat
  tr : List Event

/-- Result of a computation: normal value or a propagating exception. -/
inductive Outcome (α : Type) where
  | ok (a : α)
  | raised (msg : String)
deriving Repr, DecidableEq

/-- The script monad: state-passing with exceptions, always returning the
final state so the trace survives a raise. -/
def M (α : Type) := St → Outcome α × St

instance : Monad M where
  pure a := fun s => (Outcome.ok a, s)
  bind x f := fun s =>
    match x s with
    | (Outcome.ok a, s') => f a s'
    | (Outcome.raised m, s') => (Outcome.raised m, s')

/-- Message attached to a raised step failure. -/
def describe : Event → String
  | Event.goto u => "goto " ++ u ++ " raised"
  | Event.waitForSelector s _ _ => "wait_for_selector " ++ s ++ " raised"
  | Event.click s _ => "click " ++ s ++ " raised"
  | Event.pressKey k => "press " ++ k ++ " raised"
  | Event.readText s => "inner_text " ++ s ++ " raised"
  | Event.screenshot p => "screenshot " ++ p ++ " raised"
  | Event.waitForTimeout _ => "wait_for_timeout raised"
  | _ => "step raised"

/-- An infallible action: always succeeds and is recorded. -/
def emit (ev : Event) : M Unit := fun s =>
  (Outcome.ok (), { s with tr := ev :: s.tr })

/-- A fallible Playwright step: consumes one failure index; on success it
is recorded, on failure it raises and is not recorded. -/
def stepE (ev : Event) : M Unit := fun s =>
  if s.env.fails s.n then
    (Outcome.raised (describe ev), { s with n := s.n + 1 })
  else
    (Outcome.ok (), { s with n := s.n + 1, tr := ev :: s.tr })

/-- `locator(sel).inner_text()`: fallible; on success returns the next
HUD text from the environment. -/
def readTextM (sel : String) : M String := fun s =>
  if s.env.fails s.n then
    (Outcome.raised (describe (Event.readText sel)), { s with n := s.n + 1 })
  else
    (Outcome.ok (s.env.texts s.k),
      { s with n := s.n + 1, k := s.k + 1, tr := Event.readText sel :: s.tr })

/-- `locator(sel).is_visible()`: returns a boolean and does not raise. -/
def checkVisible (sel : String) : M Bool := fun s =>
  (Outcome.ok (s.env.visible sel), { s with tr := Event.isVisible sel :: s.tr })

/-- The console messages collected by the listener. -/
def getConsole : M (List String) := fun s =>
  (Outcome.ok s.env.consoleMsgs, s)

/-- Python `try: body except Exception as e: handler`. -/
def tryExcept {α : Type} (body : M α) (handler : String → M α) : M α := fun s =>
  match body s with
  | (Outcome.ok a, s') => (Outcome.ok a, s')
  | (Outcome.raised m, s') => handler m s'

/-- Python `try: body finally: fin`, also modelling `with`-blocks. -/
def tryFin {α : Type} (body : M α) (fin : M Unit) : M α := fun s =>
  match body s with
  | (Outcome.ok a, s') =>
    (match fin s' with
     | (Outcome.ok _, s2) => (Outcome.ok a, s2)
     | (Outcome.raised m, s2) => (Outcome.raised m, s2))
  | (Outcome.raised m, s') =>
    (match fin s' with
     | (Outcome.ok _, s2) => (Outcome.raised m, s2)
     | (Outcome.raised m2, s2) => (Outcome.raised m2, s2))

/-- Initial state for a run against environment `e`. -/
def mkSt (e : Env) : St := ⟨e, 0, 0, []⟩

/-- The trace of a whole run, oldest action first. -/
def runTrace (m : M Unit) (e : Env) : List Event := ((m (mkSt e)).2.tr).reverse

/-- The final outcome of a whole run. -/
def runOutcome (m : M Unit) (e : Env) : Outcome Unit := (m (mkSt e)).1

/-- Substring test used for Python's `needle in haystack`: `isPrefAt`
checks a character-list prefix. -/
def isPrefAt : List Char → List Char → Bool
  | [], _ => true
  | _ :: _, [] => false
  | a :: as, b :: bs => a == b && isPrefAt as bs

/-- Does `hay` contain `needle` as a contiguous substring (character lists)? -/
def hasSub (needle : List Char) : List Char → Bool
  | [] => isPrefAt needle []
  | c :: t => isPrefAt needle (c :: t) || hasSub needle t

/-- Python's `needle in hay` on strings. -/
def containsStr (hay needle : String) : Bool := hasSub needle.toList hay.toList

/-! ## verify_firewall_breach.py -/

/-- The enumerated adventure-track list from `verify_firewall_breach.py`. -/
def tracks : List String :=
  ["NEON HELIX", "CYBER CORE", "QUANTUM GRID", "SINGULARITY WELL",
   "GLITCH SPIRE", "RETRO WAVE HILLS", "CHRONO CORE", "HYPER DRIFT",
   "PACHINKO SPIRE", "ORBITAL JUNKYARD", "FIREWALL BREACH"]

/-- `toggle_adventure()`: press `h`, sleep 0.5 s. -/
def toggle_adventure : M Unit := do
  stepE (Event.pressKey "h")
  emit (Event.sleepMs 500)

/-- The scan loop of `test_firewall_breach`, over the remaining tracks;
`idx` is the zero-based position of the head track in `tracks`. -/
def fbLoop : Nat → List String → M Unit
  | _, [] => pure ()
  | idx, name :: rest => do
      emit (Event.printMsg ("Attempting to start track " ++ toString (idx + 1) ++ ": " ++ name))
      toggle_adventure
      emit (Event.sleepMs 1000)
      let t ← readTextM "#score"
      emit (Event.printMsg ("HUD Text: " ++ t))
      if containsStr t "FIREWALL BREACH" then do
        emit (Event.printMsg "Target track reached!")
        emit (Event.sleepMs 5000)
        stepE (Event.screenshot "verification/verification.png")
      else do
        toggle_adventure
        emit (Event.sleepMs 1000)
        fbLoop (idx + 1) rest

/-- `test_firewall_breach(page)`. -/
def test_firewall_breach : M Unit := do
  emit (Event.printMsg "Navigating to game...")
  stepE (Event.goto "http://localhost:3000")
  emit (Event.printMsg "Waiting for start button...")
  stepE (Event.waitForSelector "#start-btn" none none)
  stepE (Event.click "#start-btn" false)
  emit (Event.sleepMs 2000)
  emit (Event.printMsg "Cycling through adventure tracks...")
  fbLoop 0 tracks

/-- The `__main__` block of `verify_firewall_breach.py`. -/
def fbMain : M Unit :=
  tryFin
    (do
      emit Event.launch
      emit Event.newPage
      emit (Event.setViewport 1280 720)
      tryFin
        (tryExcept test_firewall_breach (fun msg => do
          emit (Event.printMsg ("Error: " ++ msg))
          stepE (Event.screenshot "/home/jules/verification/error.png")))
        (emit Event.browserClose))
    (emit Event.playwrightStop)

/-! ## verify_game.py -/

/-- `verify_lighting(page)`. -/
def verify_lighting : M Unit := do
  stepE (Event.goto "http://localhost:5173")
  stepE (Event.waitForSelector "canvas" (some 30000) none)
  stepE (Event.waitForTimeout 5000)
  stepE (Event.screenshot "verification/idle_state.png")
  emit (Event.printMsg "Screenshot taken")

/-- The `__main__` block of `verify_game.py`. -/
def gameMain : M Unit :=
  tryFin
    (do
      emit Event.launch
      emit Event.newPage
      tryFin
        (tryExcept verify_lighting (fun msg =>
          emit (Event.printMsg ("Error: " ++ msg))))
        (emit Event.browserClose))
    (emit Event.playwrightStop)

/-! ## verify_lcd.py -/

/-- `verify_lcd()`: note that `browser.close()` here is a plain trailing
statement inside the `with sync_playwright()` block, and only the
start-button wait/click is guarded by a `try/except`. -/
def verify_lcd : M Unit := do
  emit (Event.printMsg "Starting Playwright verification...")
  tryFin
    (do
      emit Event.launch
      emit Event.newPage
      emit (Event.setViewport 1280 720)
      emit (Event.printMsg "Navigating to game...")
      stepE (Event.goto "http://localhost:5173")
      emit (Event.printMsg "Waiting for load...")
      emit (Event.sleepMs 5000)
      emit (Event.printMsg "Clicking Start Game...")
      tryExcept
        (do
          stepE (Event.waitForSelector "#start-btn" (some 10000) (some "visible"))
          stepE (Event.click "#start-btn" true)
          emit (Event.printMsg "Clicked Start Game."))
        (fun msg => emit (Event.printMsg ("Error clicking start: " ++ msg)))
      emit (Event.sleepMs 3000)
      emit (Event.makedirs "verification")
      emit (Event.printMsg "Taking screenshot to verification/lcd_verification_v3.png...")
      stepE (Event.screenshot "verification/lcd_verification_v3.png")
      emit Event.browserClose
      emit (Event.printMsg "Verification complete."))
    (emit Event.playwrightStop)

/-! ## verify_reels.py -/

/-- Print each collected console message in order. -/
def printEach : List String → M Unit
  | [] => pure ()
  | m :: rest => do
      emit (Event.printMsg m)
      printEach rest

/-- `run()` from `verify_reels.py`. -/
def reelsRun : M Unit :=
  tryFin
    (do
      emit Event.launch
      emit Event.newPage
      emit Event.onConsole
      tryFin
        (tryExcept
          (do
            stepE (Event.goto "http://localhost:5173/")
            let v ← checkVisible "#start-btn"
            if v then stepE (Event.click "#start-btn" false) else pure ()
            stepE (Event.waitForTimeout 5000)
            emit (Event.printMsg "Console logs:")
            let ms ← getConsole
            printEach ms
            stepE (Event.screenshot "verification/reels.png"))
          (fun msg => emit (Event.printMsg ("Error: " ++ msg))))
        (emit Event.browserClose))
    (emit Event.playwrightStop)

/-! ## verify_slot.py -/

/-- `run(playwright)` from `verify_slot.py`: no `try` anywhere; the close
is a plain trailing statement. -/
def slotRun : M Unit := do
  emit Event.launch
  emit Event.newPage
  stepE (Event.goto "http://localhost:5173")
  emit (Event.sleepMs 5000)
  stepE (Event.screenshot "verification/slot_idle.png")
  emit Event.browserClose

/-- The top level of `verify_slot.py`: `with sync_playwright() as p: run(p)`. -/
def slotMain : M Unit :=
  tryFin slotRun (emit Event.playwrightStop)

/-! ## Trace observations -/

/-- Number of `browser.close()` calls in a trace. -/
def closes : List Event → Nat
  | [] => 0
  | Event.browserClose :: t => closes t + 1
  | _ :: t => closes t

/-- Number of `h` key presses (adventure-mode toggles) in a trace. -/
def presses : List Event → Nat
  | [] => 0
  | Event.pressKey _ :: t => presses t + 1
  | _ :: t => presses t

/-- The paths of all screenshots taken in a trace, in trace order. -/
def shotPaths : List Event → List String
  | [] => []
  | Event.screenshot p :: t => p :: shotPaths t
  | _ :: t => shotPaths t

/-- `browser.close()` count over the whole run of `m` against `e`. -/
def closesOf (m : M Unit) (e : Env) : Nat := closes ((m (mkSt e)).2.tr)

/-- Whether iteration `j` of the scan loop sees the target label. -/
def hudHit (e : Env) (j : Nat) : Bool := containsStr (e.texts j) "FIREWALL BREACH"

/-- An environment in which every fallible step succeeds, no element is
visible, all HUD reads return `t`, and no console messages arrive. -/
def plainEnv (t : String) : Env :=
  ⟨fun _ => false, fun _ => t, fun _ => false, []⟩

/-! ## Compositional predicates on computations -/

/-- `m` never raises, whatever the state. -/
def NeverRaises {α : Type} (m : M α) : Prop :=
  ∀ s, ∃ a, (m s).1 = Outcome.ok a

/-- Every execution of `m` adds exactly `c` `browser.close()` events. -/
def ClosesAdd {α : Type} (m : M α) (c : Nat) : Prop :=
  ∀ s, closes (m s).2.tr = closes s.tr + c

/-- Every execution of `m` adds at most `c` `browser.close()` events. -/
def ClosesLe {α : Type} (m : M α) (c : Nat) : Prop :=
  ∀ s, closes (m s).2.tr ≤ closes s.tr + c

/-- Every event `m` adds to the trace satisfies `P`. -/
def TraceBound {α : Type} (P : Event → Prop) (m : M α) : Prop :=
  ∀ s ev, ev ∈ (m s).2.tr → ev ∈ s.tr ∨ P ev

/-- The artifact discipline of a script: every screenshot path is in
`shots` and every created directory is in `dirs`; other events are
unrestricted. -/
def artifactOk (shots dirs : List String) : Event → Bool
  | Event.screenshot p => shots.contains p
  | Event.makedirs d => dirs.contains d
  | _ => true

/-- Is `p` a relative path under the `verification/` directory? -/
def underVerifDir (p : String) : Bool := isPrefAt "verification/".toList p.toList

/-- Does `p` end in `.png`? -/
def pngExt (p : String) : Bool :=
  isPrefAt (List.reverse ".png".toList) (List.reverse p.toList)

/-! ## Expected traces of successful runs -/

/-- One full toggle-in/toggle-out iteration of the scan loop at position
`idx`, where the HUD read returns `t` and the target is not seen. -/
def fbIterTrace (idx : Nat) (name t : String) : List Event :=
  [Event.printMsg ("Attempting to start track " ++ toString (idx + 1) ++ ": " ++ name),
   Event.pressKey "h", Event.sleepMs 500, Event.sleepMs 1000,
   Event.readText "#score", Event.printMsg ("HUD Text: " ++ t),
   Event.pressKey "h", Event.sleepMs 500, Event.sleepMs 1000]

/-- The final iteration of the scan loop when the target label is seen:
one toggle-in, no toggle-out, a 5 s settling sleep, the screenshot. -/
def fbHitTrace (idx : Nat) (name t : String) : List Event :=
  [Event.printMsg ("Attempting to start track " ++ toString (idx + 1) ++ ": " ++ name),
   Event.pressKey "h", Event.sleepMs 500, Event.sleepMs 1000,
   Event.readText "#score", Event.printMsg ("HUD Text: " ++ t),
   Event.printMsg "Target track reached!", Event.sleepMs 5000,
   Event.screenshot "verification/verification.png"]

/-- The loop trace when no iteration ever sees the target. -/
def fbAllTrace (e : Env) : Nat → Nat → List String → List Event
  | _, _, [] => []
  | idx, k, name :: rest =>
      fbIterTrace idx name (e.texts k) ++ fbAllTrace e (idx + 1) (k + 1) rest

/-- The loop trace when the target is first seen at relative index `i`. -/
def fbUpToTrace (e : Env) : Nat → Nat → List String → Nat → List Event
  | _, _, [], _ => []
  | idx, k, name :: _, 0 => fbHitTrace idx name (e.texts k)
  | idx, k, name :: rest, i + 1 =>
      fbIterTrace idx name (e.texts k) ++ fbUpToTrace e (idx + 1) (k + 1) rest i

/-- The steps of `verify_firewall_breach.py` before the scan loop. -/
def fbPrefixTrace : List Event :=
  [Event.launch, Event.newPage, Event.setViewport 1280 720,
   Event.printMsg "Navigating to game...", Event.goto "http://localhost:3000",
   Event.printMsg "Waiting for start button...",
   Event.waitForSelector "#start-btn" none none,
   Event.click "#start-btn" false, Event.sleepMs 2000,
   Event.printMsg "Cycling through adventure tracks..."]

/-- Whole-run trace of `verify_firewall_breach.py` when the target is
first matched at index `i` and no step fails. -/
def fbMatchRunTrace (e : Env) (i : Nat) : List Event :=
  fbPrefixTrace ++ fbUpToTrace e 0 0 tracks i ++
    [Event.browserClose, Event.playwrightStop]

/-- Whole-run trace of `verify_firewall_breach.py` when the target is
never matched and no step fails. -/
def fbNoMatchRunTrace (e : Env) : List Event :=
  fbPrefixTrace ++ fbAllTrace e 0 0 tracks ++
    [Event.browserClose, Event.playwrightStop]

/-- Whole-run trace of `verify_reels.py` when no step fails; `clicked`
is the visibility of `#start-btn`, `ms` the collected console messages. -/
def reelsTrace (clicked : Bool) (ms : List String) : List Event :=
  [Event.launch, Event.newPage, Event.onConsole,
   Event.goto "http://localhost:5173/", Event.isVisible "#start-btn"]
  ++ (if clicked then [Event.click "#start-btn" false] else [])
  ++ [Event.waitForTimeout 5000, Event.printMsg "Console logs:"]
  ++ ms.map Event.printMsg
  ++ [Event.screenshot "verification/reels.png", Event.browserClose,
      Event.playwrightStop]

/-- Whole-run trace of `verify_lcd.py` when no step fails. -/
def lcdOkTrace : List Event :=
  [Event.printMsg "Starting Playwright verification...", Event.launch,
   Event.newPage, Event.setViewport 1280 720,
   Event.printMsg "Navigating to game...", Event.goto "http://localhost:5173",
   Event.printMsg "Waiting for load...", Event.sleepMs 5000,
   Event.printMsg "Clicking Start Game...",
   Event.waitForSelector "#start-btn" (some 10000) (some "visible"),
   Event.click "#start-btn" true, Event.printMsg "Clicked Start Game.",
   Event.sleepMs 3000, Event.makedirs "verification",
   Event.printMsg "Taking screenshot to verification/lcd_verification_v3.png...",
   Event.screenshot "verification/lcd_verification_v3.png", Event.browserClose,
   Event.printMsg "Verification complete.", Event.playwrightStop]

/-- Whole-run trace of `verify_slot.py` when no step fails. -/
def slotOkTrace : List Event :=
  [Event.launch, Event.newPage, Event.goto "http://localhost:5173",
   Event.sleepMs 5000, Event.screenshot "verification/slot_idle.png",
   Event.browserClose, Event.playwrightStop]

/-- Whole-run trace of `verify_game.py` when no step fails. -/
def gameOkTrace : List Event :=
  [Event.launch, Event.newPage, Event.goto "http://localhost:5173",
   Event.waitForSelector "canvas" (some 30000) none, Event.waitForTimeout 5000,
   Event.screenshot "verification/idle_state.png", Event.printMsg "Screenshot taken",
   Event.browserClose, Event.playwrightStop]

/-! ## Concrete environments for counterexamples and witnesses -/

/-- Only the first fallible step (the `goto`) raises. -/
def envGotoFail : Env := ⟨fun n => n == 0, fun _ => "", fun _ => false, []⟩

/-- Only the second fallible step raises (in `verify_lcd.py` this is the
guarded `wait_for_selector`). -/
def envWaitFail : Env := ⟨fun n => n == 1, fun _ => "", fun _ => false, []⟩

/-- No failures; every HUD read reports the target label at once. -/
def envHit0 : Env :=
  ⟨fun _ => false, fun _ => "MODE: FIREWALL BREACH", fun _ => false, []⟩

/-- No failures; HUD reads 0 and 1 miss, read 2 reports the target. -/
def envHit2 : Env :=
  ⟨fun _ => false,
   fun k => if k < 2 then "MODE: NEON HELIX" else "MODE: FIREWALL BREACH",
   fun _ => false, []⟩

/-- No failures, no HUD match, `#start-btn` not visible, no console logs. -/
def envMiss : Env := plainEnv "MODE: NEON HELIX"

/-- Like `envMiss` but with every element visible. -/
def envMissVis : Env :=
  ⟨fun _ => false, fun _ => "MODE: NEON HELIX", fun _ => true, []⟩

/-- No failures, `#start-btn` not visible, two console messages. -/
def envReelsHidden : Env :=
  ⟨fun _ => false, fun _ => "", fun _ => false,
   ["reels ready", "spin queued"]⟩

/-! ## Spec-modelled filesystem semantics of capture_screenshot -/

/-- A minimal filesystem: the directories that exist and the files with
their current image contents.  Paths are component lists; a file path's
parents are its proper nonempty component prefixes. -/
structure FS where
  dirs : List (List String)
  files : List (List String × Nat)

/-- All nonempty component prefixes of a path. -/
def prefixesOf : List String → List (List String)
  | [] => []
  | c :: rest => [c] :: (prefixesOf rest).map (fun d => c :: d)

/-- Modelled from the spec: `capture_screenshot(path)` is Playwright's
`page.screenshot`, whose implementation is not part of this repository.
Following the spec's words, it creates any missing parent directories of
`path` and then writes the image there, replacing any existing file at
the same path instead of raising. -/
def capture_screenshot (path : List String) (img : Nat) (fs : FS) : FS :=
  ⟨prefixesOf path.dropLast ++ fs.dirs,
   (path, img) :: fs.files.filter (fun pr => !(pr.1 == path))⟩

/-- The image currently stored at `path`, if any. -/
def readFile (fs : FS) (path : List String) : Option Nat :=
  (fs.files.find? (fun pr => pr.1 == path)).map Prod.snd

/-! ## Basic lemmas -/

theorem bind_app {α β : Type} (x : M α) (f : α → M β) (s : St) :
    (x >>= f) s =
      match x s with
      | (Outcome.ok a, s') => f a s'
      | (Outcome.raised m, s') => (Outcome.raised m, s') := rfl

theorem pure_app {α : Type} (a : α) (s : St) :
    (pure a : M α) s = (Outcome.ok a, s) := rfl

theorem bind_ok {α β : Type} {x : M α} {f : α → M β} {s s' : St} {a : α}
    (h : x s = (Outcome.ok a, s')) : (x >>= f) s = f a s' := by
  rw [bind_app, h]

theorem bind_raise {α β : Type} {x : M α} {f : α → M β} {s s' : St} {m : String}
    (h : x s = (Outcome.raised m, s')) : (x >>= f) s = (Outcome.raised m, s') := by
  rw [bind_app, h]

theorem tryExcept_okStep {α : Type} {body : M α} {hd : String → M α} {s s' : St} {a : α}
    (hb : body s = (Outcome.ok a, s')) : tryExcept body hd s = (Outcome.ok a, s') := by
  unfold tryExcept; rw [hb]

theorem tryExcept_raiseStep {α : Type} {body : M α} {hd : String → M α} {s s' : St} {m : String}
    (hb : body s = (Outcome.raised m, s')) : tryExcept body hd s = hd m s' := by
  unfold tryExcept; rw [hb]

theorem tryFin_okStep {α : Type} {body : M α} {fin : M Unit} {s s' s2 : St} {a : α} {u : Unit}
    (hb : body s = (Outcome.ok a, s')) (hf : fin s' = (Outcome.ok u, s2)) :
    tryFin body fin s = (Outcome.ok a, s2) := by
  unfold tryFin; rw [hb]; simp [hf]

theorem tryFin_okRaiseStep {α : Type} {body : M α} {fin : M Unit} {s s' s2 : St} {a : α} {m : String}
    (hb : body s = (Outcome.ok a, s')) (hf : fin s' = (Outcome.raised m, s2)) :
    tryFin body fin s = (Outcome.raised m, s2) := by
  unfold tryFin; rw [hb]; simp [hf]

theorem tryFin_raiseStep {α : Type} {body : M α} {fin : M Unit} {s s' s2 : St} {m : String} {u : Unit}
    (hb : body s = (Outcome.raised m, s')) (hf : fin s' = (Outcome.ok u, s2)) :
    tryFin body fin s = (Outcome.raised m, s2) := by
  unfold tryFin; rw [hb]; simp [hf]

theorem tryFin_raiseRaiseStep {α : Type} {body : M α} {fin : M Unit} {s s' s2 : St} {m m2 : String}
    (hb : body s = (Outcome.raised m, s')) (hf : fin s' = (Outcome.raised m2, s2)) :
    tryFin body fin s = (Outcome.raised m2, s2) := by
  unfold tryFin; rw [hb]; simp [hf]

theorem closes_cons (ev : Event) (l : List Event) :
    closes (ev :: l) = closes l + (if ev = Event.browserClose then 1 else 0) := by
  cases ev <;> simp [closes]

theorem closes_append (a b : List Event) :
    closes (a ++ b) = closes a + closes b := by
  induction a with
  | nil => simp [closes]
  | cons x t ih => rw [List.cons_append, closes_cons, closes_cons, ih]; omega

theorem closes_reverse (l : List Event) : closes l.reverse = closes l := by
  induction l with
  | nil => rfl
  | cons x t ih =>
      rw [List.reverse_cons, closes_append, closes_cons, ih, closes_cons]
      simp [closes]

theorem presses_cons (ev : Event) (l : List Event) :
    presses (ev :: l) =
      presses l + (match ev with | Event.pressKey _ => 1 | _ => 0) := by
  cases ev <;> simp [presses]

theorem presses_append (a b : List Event) :
    presses (a ++ b) = presses a + presses b := by
  induction a with
  | nil => simp [presses]
  | cons x t ih => rw [List.cons_append, presses_cons, presses_cons, ih]; omega

theorem presses_reverse (l : List Event) : presses l.reverse = presses l := by
  induction l with
  | nil => rfl
  | cons x t ih =>
      rw [List.reverse_cons, presses_append, presses_cons, ih, presses_cons]
      simp [presses]

theorem shotPaths_cons (ev : Event) (l : List Event) :
    shotPaths (ev :: l) =
      (match ev with | Event.screenshot p => [p] | _ => []) ++ shotPaths l := by
  cases ev <;> simp [shotPaths]

theorem shotPaths_append (a b : List Event) :
    shotPaths (a ++ b) = shotPaths a ++ shotPaths b := by
  induction a with
  | nil => simp [shotPaths]
  | cons x t ih =>
      rw [List.cons_append, shotPaths_cons, shotPaths_cons, ih, List.append_assoc]

/-! ## NeverRaises lemmas -/

theorem nr_pure {α : Type} (a : α) : NeverRaises (pure a : M α) :=
  fun _ => ⟨a, rfl⟩

theorem nr_emit (ev : Event) : NeverRaises (emit ev) :=
  fun _ => ⟨(), rfl⟩

theorem nr_checkVisible (sel : String) : NeverRaises (checkVisible sel) :=
  fun s => ⟨s.env.visible sel, rfl⟩

theorem nr_getConsole : NeverRaises getConsole :=
  fun s => ⟨s.env.consoleMsgs, rfl⟩

theorem nr_bind {α β : Type} {x : M α} {f : α → M β}
    (hx : NeverRaises x) (hf : ∀ a, NeverRaises (f a)) :
    NeverRaises (x >>= f) := by
  intro s
  obtain ⟨a, ha⟩ := hx s
  rcases hxs : x s with ⟨o, s'⟩
  rw [hxs] at ha
  rw [bind_app, hxs]
  cases o with
  | ok b => exact hf b s'
  | raised m => simp at ha

theorem nr_printEach (ms : List String) : NeverRaises (printEach ms) := by
  induction ms with
  | nil => exact nr_pure ()
  | cons m rest ih => exact nr_bind (nr_emit _) (fun _ => ih)

theorem nr_tryExcept {α : Type} {body : M α} {h : String → M α}
    (hh : ∀ m, NeverRaises (h m)) : NeverRaises (tryExcept body h) := by
  intro s
  unfold tryExcept
  rcases hb : body s with ⟨o, s'⟩
  cases o with
  | ok a => exact ⟨a, rfl⟩
  | raised m => exact hh m s'

theorem nr_tryFin {α : Type} {body : M α} {fin : M Unit}
    (hb : NeverRaises body) (hf : NeverRaises fin) :
    NeverRaises (tryFin body fin) := by
  intro s
  obtain ⟨a, ha⟩ := hb s
  rcases hbs : body s with ⟨o, s'⟩
  rw [hbs] at ha
  cases o with
  | ok b =>
      obtain ⟨u, hu⟩ := hf s'
      rcases hfs : fin s' with ⟨o2, s2⟩
      rw [hfs] at hu
      cases o2 with
      | ok v => exact ⟨b, by rw [tryFin_okStep hbs hfs]⟩
      | raised m2 => simp at hu
  | raised m => simp at ha

theorem nr_ite {α : Type} {c : Prop} [Decidable c] {x y : M α}
    (hx : NeverRaises x) (hy : NeverRaises y) :
    NeverRaises (if c then x else y) := by
  by_cases hc : c
  · rwa [if_pos hc]
  · rwa [if_neg hc]

/-! ## ClosesAdd lemmas -/

theorem ca_pure {α : Type} (a : α) : ClosesAdd (pure a : M α) 0 :=
  fun _ => rfl

theorem ca_emit_ne {ev : Event} (h : ev ≠ Event.browserClose) :
    ClosesAdd (emit ev) 0 := by
  intro s
  simp [emit, closes_cons, h]

theorem ca_emit_close : ClosesAdd (emit Event.browserClose) 1 := by
  intro s
  simp [emit, closes_cons]

theorem ca_stepE {ev : Event} (h : ev ≠ Event.browserClose) :
    ClosesAdd (stepE ev) 0 := by
  intro s
  unfold stepE
  by_cases hf : s.env.fails s.n
  · rw [if_pos hf]; rfl
  · rw [if_neg hf]; simp [closes_cons, h]

theorem ca_readTextM (sel : String) : ClosesAdd (readTextM sel) 0 := by
  intro s
  unfold readTextM
  by_cases hf : s.env.fails s.n
  · rw [if_pos hf]; rfl
  · rw [if_neg hf]; simp [closes_cons]

theorem ca_checkVisible (sel : String) : ClosesAdd (checkVisible sel) 0 := by
  intro s
  simp [checkVisible, closes_cons]

theorem ca_getConsole : ClosesAdd getConsole 0 :=
  fun _ => rfl

theorem ca_bind0 {α β : Type} {x : M α} {f : α → M β}
    (hx : ClosesAdd x 0) (hf : ∀ a, ClosesAdd (f a) 0) :
    ClosesAdd (x >>= f) 0 := by
  intro s
  have h1 := hx s
  rcases hxs : x s with ⟨o, s'⟩
  rw [hxs] at h1
  simp only [Nat.add_zero] at h1 ⊢
  cases o with
  | ok a =>
      rw [bind_ok hxs]
      have h2 := hf a s'
      simp only [Nat.add_zero] at h2
      rw [h2, h1]
  | raised m =>
      rw [bind_raise hxs]
      exact h1

theorem ca_bind_nr {α β : Type} {x : M α} {f : α → M β} {c : Nat}
    (hnr : NeverRaises x) (hx : ClosesAdd x 0) (hf : ∀ a, ClosesAdd (f a) c) :
    ClosesAdd (x >>= f) c := by
  intro s
  have h1 := hx s
  obtain ⟨a, ha⟩ := hnr s
  rcases hxs : x s with ⟨o, s'⟩
  rw [hxs] at h1 ha
  simp only [Nat.add_zero] at h1
  cases o with
  | ok b =>
      rw [bind_ok hxs]
      have h2 := hf b s'
      rw [h2, h1]
  | raised m => simp at ha

theorem ca_printEach (ms : List String) : ClosesAdd (printEach ms) 0 := by
  induction ms with
  | nil => exact ca_pure ()
  | cons m rest ih =>
      exact ca_bind0 (ca_emit_ne (by intro h; cases h)) (fun _ => ih)

theorem ca_tryExcept0 {α : Type} {body : M α} {hd : String → M α}
    (hb : ClosesAdd body 0) (hh : ∀ m, ClosesAdd (hd m) 0) :
    ClosesAdd (tryExcept body hd) 0 := by
  intro s
  have h1 := hb s
  rcases hbs : body s with ⟨o, s'⟩
  rw [hbs] at h1
  simp only [Nat.add_zero] at h1 ⊢
  cases o with
  | ok a => rw [tryExcept_okStep hbs]; exact h1
  | raised m =>
      rw [tryExcept_raiseStep hbs]
      have h2 := hh m s'
      simp only [Nat.add_zero] at h2
      rw [h2, h1]

theorem ca_tryFin {α : Type} {body : M α} {fin : M Unit} {b c : Nat}
    (hb : ClosesAdd body b) (hf : ClosesAdd fin c) :
    ClosesAdd (tryFin body fin) (b + c) := by
  intro s
  have h1 := hb s
  rcases hbs : body s with ⟨o, s'⟩
  rw [hbs] at h1
  have h2 := hf s'
  rcases hfs : fin s' with ⟨o2, s2⟩
  rw [hfs] at h2
  cases o with
  | ok a =>
      cases o2 with
      | ok u => rw [tryFin_okStep hbs hfs]; simp only []; rw [h2, h1]; omega
      | raised m => rw [tryFin_okRaiseStep hbs hfs]; simp only []; rw [h2, h1]; omega
  | raised m =>
      cases o2 with
      | ok u => rw [tryFin_raiseStep hbs hfs]; simp only []; rw [h2, h1]; omega
      | raised m2 => rw [tryFin_raiseRaiseStep hbs hfs]; simp only []; rw [h2, h1]; omega

theorem ca_ite {α : Type} {c : Prop} [Decidable c] {x y : M α} {n : Nat}
    (hx : ClosesAdd x n) (hy : ClosesAdd y n) :
    ClosesAdd (if c then x else y) n := by
  by_cases hc : c
  · rwa [if_pos hc]
  · rwa [if_neg hc]

theorem ca_toggle : ClosesAdd toggle_adventure 0 :=
  ca_bind0 (ca_stepE (by intro h; cases h))
    (fun _ => ca_emit_ne (by intro h; cases h))

theorem ca_fbLoop : ∀ (ts : List String) (idx : Nat), ClosesAdd (fbLoop idx ts) 0 := by
  intro ts
  induction ts with
  | nil => intro idx; exact ca_pure ()
  | cons name rest ih =>
      intro idx
      exact ca_bind0 (ca_emit_ne (by intro h; cases h)) (fun _ =>
        ca_bind0 ca_toggle (fun _ =>
          ca_bind0 (ca_emit_ne (by intro h; cases h)) (fun _ =>
            ca_bind0 (ca_readTextM _) (fun t =>
              ca_bind0 (ca_emit_ne (by intro h; cases h)) (fun _ =>
                ca_ite
                  (ca_bind0 (ca_emit_ne (by intro h; cases h)) (fun _ =>
                    ca_bind0 (ca_emit_ne (by intro h; cases h)) (fun _ =>
                      ca_stepE (by intro h; cases h))))
                  (ca_bind0 ca_toggle (fun _ =>
                    ca_bind0 (ca_emit_ne (by intro h; cases h)) (fun _ =>
                      ih idx.succ))))))))

theorem ca_test_fb : ClosesAdd test_firewall_breach 0 :=
  ca_bind0 (ca_emit_ne (by intro h; cases h)) (fun _ =>
    ca_bind0 (ca_stepE (by intro h; cases h)) (fun _ =>
      ca_bind0 (ca_emit_ne (by intro h; cases h)) (fun _ =>
        ca_bind0 (ca_stepE (by intro h; cases h)) (fun _ =>
          ca_bind0 (ca_stepE (by intro h; cases h)) (fun _ =>
            ca_bind0 (ca_emit_ne (by intro h; cases h)) (fun _ =>
              ca_bind0 (ca_emit_ne (by intro h; cases h)) (fun _ =>
                ca_fbLoop tracks 0)))))))

theorem ca_fbMain : ClosesAdd fbMain 1 := by
  have hinner : ClosesAdd
      (tryFin
        (tryExcept test_firewall_breach (fun msg => do
          emit (Event.printMsg ("Error: " ++ msg))
          stepE (Event.screenshot "/home/jules/verification/error.png")))
        (emit Event.browserClose)) (0 + 1) :=
    ca_tryFin
      (ca_tryExcept0 ca_test_fb (fun m =>
        ca_bind0 (ca_emit_ne (by intro h; cases h)) (fun _ =>
          ca_stepE (by intro h; cases h))))
      ca_emit_close
  have hbody : ClosesAdd
      (do
        emit Event.launch
        emit Event.newPage
        emit (Event.setViewport 1280 720)
        tryFin
          (tryExcept test_firewall_breach (fun msg => do
            emit (Event.printMsg ("Error: " ++ msg))
            stepE (Event.screenshot "/home/jules/verification/error.png")))
          (emit Event.browserClose)) 1 :=
    ca_bind_nr (nr_emit _) (ca_emit_ne (by intro h; cases h)) (fun _ =>
      ca_bind_nr (nr_emit _) (ca_emit_ne (by intro h; cases h)) (fun _ =>
        ca_bind_nr (nr_emit _) (ca_emit_ne (by intro h; cases h)) (fun _ => by
          simpa using hinner)))
  have : ClosesAdd fbMain (1 + 0) :=
    ca_tryFin hbody (ca_emit_ne (by intro h; cases h))
  simpa using this

theorem ca_verify_lighting : ClosesAdd verify_lighting 0 :=
  ca_bind0 (ca_stepE (by intro h; cases h)) (fun _ =>
    ca_bind0 (ca_stepE (by intro h; cases h)) (fun _ =>
      ca_bind0 (ca_stepE (by intro h; cases h)) (fun _ =>
        ca_bind0 (ca_stepE (by intro h; cases h)) (fun _ =>
          ca_emit_ne (by intro h; cases h)))))

theorem ca_gameMain : ClosesAdd gameMain 1 := by
  have hinner : ClosesAdd
      (tryFin
        (tryExcept verify_lighting (fun msg =>
          emit (Event.printMsg ("Error: " ++ msg))))
        (emit Event.browserClose)) (0 + 1) :=
    ca_tryFin
      (ca_tryExcept0 ca_verify_lighting (fun m =>
        ca_emit_ne (by intro h; cases h)))
      ca_emit_close
  have hbody : ClosesAdd
      (do
        emit Event.launch
        emit Event.newPage
        tryFin
          (tryExcept verify_lighting (fun msg =>
            emit (Event.printMsg ("Error: " ++ msg))))
          (emit Event.browserClose)) 1 :=
    ca_bind_nr (nr_emit _) (ca_emit_ne (by intro h; cases h)) (fun _ =>
      ca_bind_nr (nr_emit _) (ca_emit_ne (by intro h; cases h)) (fun _ => by
        simpa using hinner))
  have : ClosesAdd gameMain (1 + 0) :=
    ca_tryFin hbody (ca_emit_ne (by intro h; cases h))
  simpa using this

theorem ca_reelsBody : ClosesAdd
    (do
      stepE (Event.goto "http://localhost:5173/")
      let v ← checkVisible "#start-btn"
      if v then stepE (Event.click "#start-btn" false) else pure ()
      stepE (Event.waitForTimeout 5000)
      emit (Event.printMsg "Console logs:")
      let ms ← getConsole
      printEach ms
      stepE (Event.screenshot "verification/reels.png")) 0 := by
  have hrest : ClosesAdd
      (do
        stepE (Event.waitForTimeout 5000)
        emit (Event.printMsg "Console logs:")
        let ms ← getConsole
        printEach ms
        stepE (Event.screenshot "verification/reels.png")) 0 :=
    ca_bind0 (ca_stepE (show Event.waitForTimeout 5000 ≠ Event.browserClose from
        fun h => Event.noConfusion h)) (fun _ =>
      ca_bind0 (ca_emit_ne (show Event.printMsg "Console logs:" ≠ Event.browserClose from
          fun h => Event.noConfusion h)) (fun _ =>
        ca_bind0 ca_getConsole (fun ms =>
          ca_bind0 (ca_printEach ms) (fun _ =>
            ca_stepE (show Event.screenshot "verification/reels.png" ≠ Event.browserClose from
              fun h => Event.noConfusion h)))))
  exact ca_bind0 (ca_stepE (show Event.goto "http://localhost:5173/" ≠ Event.browserClose from
      fun h => Event.noConfusion h)) (fun _ =>
    ca_bind0 (ca_checkVisible _) (fun v =>
      ca_ite
        (ca_bind0 (ca_stepE (show Event.click "#start-btn" false ≠ Event.browserClose from
          fun h => Event.noConfusion h)) (fun _ => hrest))
        (ca_bind0 (ca_pure ()) (fun _ => hrest))))

theorem ca_reelsRun : ClosesAdd reelsRun 1 := by
  have hinner : ClosesAdd
      (tryFin
        (tryExcept
          (do
            stepE (Event.goto "http://localhost:5173/")
            let v ← checkVisible "#start-btn"
            if v then stepE (Event.click "#start-btn" false) else pure ()
            stepE (Event.waitForTimeout 5000)
            emit (Event.printMsg "Console logs:")
            let ms ← getConsole
            printEach ms
            stepE (Event.screenshot "verification/reels.png"))
          (fun msg => emit (Event.printMsg ("Error: " ++ msg))))
        (emit Event.browserClose)) (0 + 1) :=
    ca_tryFin
      (ca_tryExcept0 ca_reelsBody (fun m => ca_emit_ne (by intro h; cases h)))
      ca_emit_close
  have hbody : ClosesAdd
      (do
        emit Event.launch
        emit Event.newPage
        emit Event.onConsole
        tryFin
          (tryExcept
            (do
              stepE (Event.goto "http://localhost:5173/")
              let v ← checkVisible "#start-btn"
              if v then stepE (Event.click "#start-btn" false) else pure ()
              stepE (Event.waitForTimeout 5000)
              emit (Event.printMsg "Console logs:")
              let ms ← getConsole
              printEach ms
              stepE (Event.screenshot "verification/reels.png"))
            (fun msg => emit (Event.printMsg ("Error: " ++ msg))))
          (emit Event.browserClose)) 1 :=
    ca_bind_nr (nr_emit _) (ca_emit_ne (by intro h; cases h)) (fun _ =>
      ca_bind_nr (nr_emit _) (ca_emit_ne (by intro h; cases h)) (fun _ =>
        ca_bind_nr (nr_emit _) (ca_emit_ne (by intro h; cases h)) (fun _ => by
          simpa using hinner)))
  have : ClosesAdd reelsRun (1 + 0) :=
    ca_tryFin hbody (ca_emit_ne (by intro h; cases h))
  simpa using this

/-! ## ClosesLe lemmas -/

theorem cle_of_add {α : Type} {m : M α} {c : Nat} (h : ClosesAdd m c) :
    ClosesLe m c :=
  fun s => Nat.le_of_eq (h s)

theorem cle_bind {α β : Type} {x : M α} {f : α → M β} {a b : Nat}
    (hx : ClosesLe x a) (hf : ∀ v, ClosesLe (f v) b) :
    ClosesLe (x >>= f) (a + b) := by
  intro s
  have h1 := hx s
  rcases hxs : x s with ⟨o, s'⟩
  rw [hxs] at h1
  dsimp only at h1
  cases o with
  | ok v =>
      rw [bind_ok hxs]
      have h2 := hf v s'
      omega
  | raised m =>
      rw [bind_raise hxs]
      dsimp only
      omega

theorem cle_tryExcept {α : Type} {body : M α} {hd : String → M α} {a b : Nat}
    (hb : ClosesLe body a) (hh : ∀ m, ClosesLe (hd m) b) :
    ClosesLe (tryExcept body hd) (a + b) := by
  intro s
  have h1 := hb s
  rcases hbs : body s with ⟨o, s'⟩
  rw [hbs] at h1
  dsimp only at h1
  cases o with
  | ok v => rw [tryExcept_okStep hbs]; dsimp only; omega
  | raised m =>
      rw [tryExcept_raiseStep hbs]
      have h2 := hh m s'
      omega

theorem cle_tryFin {α : Type} {body : M α} {fin : M Unit} {a b : Nat}
    (hb : ClosesLe body a) (hf : ClosesLe fin b) :
    ClosesLe (tryFin body fin) (a + b) := by
  intro s
  have h1 := hb s
  rcases hbs : body s with ⟨o, s'⟩
  rw [hbs] at h1
  dsimp only at h1
  have h2 := hf s'
  rcases hfs : fin s' with ⟨o2, s2⟩
  rw [hfs] at h2
  dsimp only at h2
  cases o with
  | ok v =>
      cases o2 with
      | ok u => rw [tryFin_okStep hbs hfs]; dsimp only; omega
      | raised m => rw [tryFin_okRaiseStep hbs hfs]; dsimp only; omega
  | raised m =>
      cases o2 with
      | ok u => rw [tryFin_raiseStep hbs hfs]; dsimp only; omega
      | raised m2 => rw [tryFin_raiseRaiseStep hbs hfs]; dsimp only; omega

theorem cle_mono {α : Type} {m : M α} {c d : Nat}
    (h : ClosesLe m c) (hcd : c ≤ d) : ClosesLe m d := by
  intro s
  have := h s
  omega

theorem cle_lcd : ClosesLe verify_lcd 1 := by
  have hguard : ClosesLe
      (tryExcept
        (do
          stepE (Event.waitForSelector "#start-btn" (some 10000) (some "visible"))
          stepE (Event.click "#start-btn" true)
          emit (Event.printMsg "Clicked Start Game."))
        (fun msg => emit (Event.printMsg ("Error clicking start: " ++ msg)))) (0 + 0) :=
    cle_tryExcept
      (cle_of_add (ca_bind0 (ca_stepE (by intro h; cases h)) (fun _ =>
        ca_bind0 (ca_stepE (by intro h; cases h)) (fun _ =>
          ca_emit_ne (by intro h; cases h)))))
      (fun m => cle_of_add (ca_emit_ne (by intro h; cases h)))
  have htail : ClosesLe
      (do
        emit (Event.sleepMs 3000)
        emit (Event.makedirs "verification")
        emit (Event.printMsg "Taking screenshot to verification/lcd_verification_v3.png...")
        stepE (Event.screenshot "verification/lcd_verification_v3.png")
        emit Event.browserClose
        emit (Event.printMsg "Verification complete.")) (0 + (0 + (0 + (0 + (1 + 0))))) :=
    cle_bind (cle_of_add (ca_emit_ne (by intro h; cases h))) (fun _ =>
      cle_bind (cle_of_add (ca_emit_ne (by intro h; cases h))) (fun _ =>
        cle_bind (cle_of_add (ca_emit_ne (by intro h; cases h))) (fun _ =>
          cle_bind (cle_of_add (ca_stepE (by intro h; cases h))) (fun _ =>
            cle_bind (cle_of_add ca_emit_close) (fun _ =>
              cle_of_add (ca_emit_ne (by intro h; cases h)))))))
  have hwith : ClosesLe
      (do
        emit Event.launch
        emit Event.newPage
        emit (Event.setViewport 1280 720)
        emit (Event.printMsg "Navigating to game...")
        stepE (Event.goto "http://localhost:5173")
        emit (Event.printMsg "Waiting for load...")
        emit (Event.sleepMs 5000)
        emit (Event.printMsg "Clicking Start Game...")
        tryExcept
          (do
            stepE (Event.waitForSelector "#start-btn" (some 10000) (some "visible"))
            stepE (Event.click "#start-btn" true)
            emit (Event.printMsg "Clicked Start Game."))
          (fun msg => emit (Event.printMsg ("Error clicking start: " ++ msg)))
        emit (Event.sleepMs 3000)
        emit (Event.makedirs "verification")
        emit (Event.printMsg "Taking screenshot to verification/lcd_verification_v3.png...")
        stepE (Event.screenshot "verification/lcd_verification_v3.png")
        emit Event.browserClose
        emit (Event.printMsg "Verification complete.")) 1 := by
    refine cle_mono ?_ (by omega : (0:Nat) + (0 + (0 + (0 + (0 + (0 + (0 + (0 + ((0 + 0) + (0 + (0 + (0 + (0 + (1 + 0))))))))))))) ≤ 1)
    exact cle_bind (cle_of_add (ca_emit_ne (by intro h; cases h))) (fun _ =>
      cle_bind (cle_of_add (ca_emit_ne (by intro h; cases h))) (fun _ =>
        cle_bind (cle_of_add (ca_emit_ne (by intro h; cases h))) (fun _ =>
          cle_bind (cle_of_add (ca_emit_ne (by intro h; cases h))) (fun _ =>
            cle_bind (cle_of_add (ca_stepE (by intro h; cases h))) (fun _ =>
              cle_bind (cle_of_add (ca_emit_ne (by intro h; cases h))) (fun _ =>
                cle_bind (cle_of_add (ca_emit_ne (by intro h; cases h))) (fun _ =>
                  cle_bind (cle_of_add (ca_emit_ne (by intro h; cases h))) (fun _ =>
                    cle_bind hguard (fun _ => htail)))))))))
  have : ClosesLe verify_lcd (0 + (1 + 0)) :=
    cle_bind (cle_of_add (ca_emit_ne (by intro h; cases h))) (fun _ =>
      cle_tryFin hwith (cle_of_add (ca_emit_ne (by intro h; cases h))))
  exact cle_mono this (by omega)

theorem cle_slot : ClosesLe slotMain 1 := by
  have hrun : ClosesLe slotRun (0 + (0 + (0 + (0 + (0 + 1))))) :=
    cle_bind (cle_of_add (ca_emit_ne (by intro h; cases h))) (fun _ =>
      cle_bind (cle_of_add (ca_emit_ne (by intro h; cases h))) (fun _ =>
        cle_bind (cle_of_add (ca_stepE (by intro h; cases h))) (fun _ =>
          cle_bind (cle_of_add (ca_emit_ne (by intro h; cases h))) (fun _ =>
            cle_bind (cle_of_add (ca_stepE (by intro h; cases h))) (fun _ =>
              cle_of_add ca_emit_close)))))
  have : ClosesLe slotMain ((0 + (0 + (0 + (0 + (0 + 1))))) + 0) :=
    cle_tryFin hrun (cle_of_add (ca_emit_ne (by intro h; cases h)))
  exact cle_mono this (by omega)

/-! ## The fully guarded scripts never raise -/

theorem nr_gameMain : NeverRaises gameMain :=
  nr_tryFin
    (nr_bind (nr_emit _) (fun _ =>
      nr_bind (nr_emit _) (fun _ =>
        nr_tryFin
          (nr_tryExcept (fun _ => nr_emit _))
          (nr_emit _))))
    (nr_emit _)

theorem nr_reelsRun : NeverRaises reelsRun :=
  nr_tryFin
    (nr_bind (nr_emit _) (fun _ =>
      nr_bind (nr_emit _) (fun _ =>
        nr_bind (nr_emit _) (fun _ =>
          nr_tryFin
            (nr_tryExcept (fun _ => nr_emit _))
            (nr_emit _)))))
    (nr_emit _)

/-! ## Closed-form runs of the loop-free scripts -/

theorem printEach_app : ∀ (ms : List String) (s : St),
    printEach ms s =
      (Outcome.ok (), { s with tr := (ms.map Event.printMsg).reverse ++ s.tr }) := by
  intro ms
  induction ms with
  | nil => intro s; rfl
  | cons m rest ih =>
      intro s
      have h1 : printEach (m :: rest) s =
          printEach rest { s with tr := Event.printMsg m :: s.tr } :=
        bind_ok rfl
      rw [h1, ih]
      simp [List.append_assoc]

theorem reels_run_closed (e : Env) (hf : ∀ n, e.fails n = false) :
    runTrace reelsRun e = reelsTrace (e.visible "#start-btn") e.consoleMsgs ∧
    runOutcome reelsRun e = Outcome.ok () := by
  cases hv : e.visible "#start-btn" <;>
    simp [runTrace, runOutcome, reelsRun, mkSt, tryFin, tryExcept, bind_app,
      emit, stepE, checkVisible, getConsole, printEach_app, hf, hv, reelsTrace]

theorem lcd_run_closed (e : Env) (hf : ∀ n, e.fails n = false) :
    runTrace verify_lcd e = lcdOkTrace ∧ runOutcome verify_lcd e = Outcome.ok () := by
  simp [runTrace, runOutcome, verify_lcd, mkSt, tryFin, tryExcept, bind_app,
    emit, stepE, hf, lcdOkTrace]

theorem slot_run_closed (e : Env) (hf : ∀ n, e.fails n = false) :
    runTrace slotMain e = slotOkTrace ∧ runOutcome slotMain e = Outcome.ok () := by
  simp [runTrace, runOutcome, slotMain, slotRun, mkSt, tryFin, bind_app,
    emit, stepE, hf, slotOkTrace]

/-! ## The scan loop of verify_firewall_breach.py -/

theorem fbLoop_nomatch (e : Env) (hf : ∀ n, e.fails n = false) :
    ∀ (ts : List String) (idx : Nat) (s : St), s.env = e →
      (∀ j, j < ts.length → hudHit e (s.k + j) = false) →
      fbLoop idx ts s =
        (Outcome.ok (), ⟨e, s.n + 3 * ts.length, s.k + ts.length,
          (fbAllTrace e idx s.k ts).reverse ++ s.tr⟩) := by
  intro ts
  induction ts with
  | nil =>
      intro idx s hse _
      rcases s with ⟨se, sn, sk, str⟩
      dsimp only at hse
      subst hse
      simp [fbLoop, pure_app, fbAllTrace]
  | cons name rest ih =>
      intro idx s hse hmiss
      rcases s with ⟨se, sn, sk, str⟩
      dsimp only at hse
      subst hse
      dsimp only at hmiss
      have h0 : containsStr (se.texts sk) "FIREWALL BREACH" = false := by
        have := hmiss 0 (by simp)
        simpa [hudHit] using this
      have hmiss' : ∀ j, j < rest.length → hudHit se (sk + 1 + j) = false := by
        intro j hj
        have := hmiss (j + 1) (by simp; omega)
        rwa [show sk + (j + 1) = sk + 1 + j by omega] at this
      have hrec := ih (idx + 1)
        ⟨se, sn + 1 + 1 + 1, sk + 1,
          Event.sleepMs 1000 :: Event.sleepMs 500 :: Event.pressKey "h" ::
          Event.printMsg ("HUD Text: " ++ se.texts sk) :: Event.readText "#score" ::
          Event.sleepMs 1000 :: Event.sleepMs 500 :: Event.pressKey "h" ::
          Event.printMsg ("Attempting to start track " ++ toString (idx + 1) ++ ": " ++ name) ::
          str⟩ rfl hmiss'
      simp only [fbLoop, toggle_adventure, bind_app, emit, stepE, readTextM,
        describe, hf, if_false, Bool.false_eq_true, ite_false, h0] at hrec ⊢
      rw [hrec]
      simp [fbAllTrace, fbIterTrace, St.mk.injEq, List.append_assoc]
      omega

theorem fbLoop_match (e : Env) (hf : ∀ n, e.fails n = false) :
    ∀ (i : Nat) (ts : List String) (idx : Nat) (s : St), s.env = e →
      i < ts.length →
      (∀ j, j < i → hudHit e (s.k + j) = false) →
      hudHit e (s.k + i) = true →
      fbLoop idx ts s =
        (Outcome.ok (), ⟨e, s.n + 3 * (i + 1), s.k + i + 1,
          (fbUpToTrace e idx s.k ts i).reverse ++ s.tr⟩) := by
  intro i
  induction i with
  | zero =>
      intro ts idx s hse hlen _ hhit
      rcases ts with _ | ⟨name, rest⟩
      · simp at hlen
      rcases s with ⟨se, sn, sk, str⟩
      dsimp only at hse
      subst hse
      dsimp only at hhit
      have h0 : containsStr (se.texts sk) "FIREWALL BREACH" = true := by
        simpa [hudHit] using hhit
      simp only [fbLoop, toggle_adventure, bind_app, emit, stepE, readTextM,
        describe, hf, if_false, Bool.false_eq_true, ite_false, h0, if_true]
      simp [fbUpToTrace, fbHitTrace, St.mk.injEq, List.append_assoc]
  | succ i ih =>
      intro ts idx s hse hlen hmiss hhit
      rcases ts with _ | ⟨name, rest⟩
      · simp at hlen
      rcases s with ⟨se, sn, sk, str⟩
      dsimp only at hse
      subst hse
      dsimp only at hmiss hhit
      have h0 : containsStr (se.texts sk) "FIREWALL BREACH" = false := by
        have := hmiss 0 (by omega)
        simpa [hudHit] using this
      have hmiss' : ∀ j, j < i → hudHit se (sk + 1 + j) = false := by
        intro j hj
        have := hmiss (j + 1) (by omega)
        rwa [show sk + (j + 1) = sk + 1 + j by omega] at this
      have hhit' : hudHit se (sk + 1 + i) = true := by
        rwa [show sk + (i + 1) = sk + 1 + i by omega] at hhit
      have hlen' : i < rest.length := by
        simp at hlen
        omega
      have hrec := ih rest (idx + 1)
        ⟨se, sn + 1 + 1 + 1, sk + 1,
          Event.sleepMs 1000 :: Event.sleepMs 500 :: Event.pressKey "h" ::
          Event.printMsg ("HUD Text: " ++ se.texts sk) :: Event.readText "#score" ::
          Event.sleepMs 1000 :: Event.sleepMs 500 :: Event.pressKey "h" ::
          Event.printMsg ("Attempting to start track " ++ toString (idx + 1) ++ ": " ++ name) ::
          str⟩ rfl hlen' hmiss' hhit'
      simp only [fbLoop, toggle_adventure, bind_app, emit, stepE, readTextM,
        describe, hf, if_false, Bool.false_eq_true, ite_false, h0] at hrec ⊢
      rw [hrec]
      simp [fbUpToTrace, fbIterTrace, St.mk.injEq, List.append_assoc]
      omega

theorem fbMain_match (e : Env) (i : Nat) (hf : ∀ n, e.fails n = false)
    (hlen : i < tracks.length)
    (hmiss : ∀ j, j < i → hudHit e j = false)
    (hhit : hudHit e i = true) :
    runTrace fbMain e = fbMatchRunTrace e i ∧ runOutcome fbMain e = Outcome.ok () := by
  have hloop := fbLoop_match e hf i tracks 0
    ⟨e, 3, 0,
      [Event.printMsg "Cycling through adventure tracks...", Event.sleepMs 2000,
       Event.click "#start-btn" false, Event.waitForSelector "#start-btn" none none,
       Event.printMsg "Waiting for start button...", Event.goto "http://localhost:3000",
       Event.printMsg "Navigating to game...", Event.setViewport 1280 720,
       Event.newPage, Event.launch]⟩ rfl hlen (by simpa using hmiss) (by simpa using hhit)
  dsimp only at hloop
  constructor
  · simp [runTrace, fbMain, test_firewall_breach, mkSt, tryFin, tryExcept,
      bind_app, emit, stepE, describe, hf, hloop, fbMatchRunTrace, fbPrefixTrace,
      List.reverse_cons, List.reverse_nil, List.append_assoc]
  · simp [runOutcome, fbMain, test_firewall_breach, mkSt, tryFin, tryExcept,
      bind_app, emit, stepE, describe, hf, hloop]

theorem fbMain_nomatch (e : Env) (hf : ∀ n, e.fails n = false)
    (hmiss : ∀ j, j < tracks.length → hudHit e j = false) :
    runTrace fbMain e = fbNoMatchRunTrace e ∧ runOutcome fbMain e = Outcome.ok () := by
  have hloop := fbLoop_nomatch e hf tracks 0
    ⟨e, 3, 0,
      [Event.printMsg "Cycling through adventure tracks...", Event.sleepMs 2000,
       Event.click "#start-btn" false, Event.waitForSelector "#start-btn" none none,
       Event.printMsg "Waiting for start button...", Event.goto "http://localhost:3000",
       Event.printMsg "Navigating to game...", Event.setViewport 1280 720,
       Event.newPage, Event.launch]⟩ rfl (by simpa using hmiss)
  dsimp only at hloop
  constructor
  · simp [runTrace, fbMain, test_firewall_breach, mkSt, tryFin, tryExcept,
      bind_app, emit, stepE, describe, hf, hloop, fbNoMatchRunTrace, fbPrefixTrace,
      List.reverse_cons, List.reverse_nil, List.append_assoc]
  · simp [runOutcome, fbMain, test_firewall_breach, mkSt, tryFin, tryExcept,
      bind_app, emit, stepE, describe, hf, hloop]

theorem presses_fbPrefix : presses fbPrefixTrace = 0 := rfl

theorem presses_fbIter (idx : Nat) (name t : String) :
    presses (fbIterTrace idx name t) = 2 := rfl

theorem presses_fbHit (idx : Nat) (name t : String) :
    presses (fbHitTrace idx name t) = 1 := rfl

theorem presses_fbAll (e : Env) :
    ∀ (ts : List String) (idx k : Nat),
      presses (fbAllTrace e idx k ts) = 2 * ts.length := by
  intro ts
  induction ts with
  | nil => intro idx k; rfl
  | cons name rest ih =>
      intro idx k
      rw [show fbAllTrace e idx k (name :: rest) =
        fbIterTrace idx name (e.texts k) ++ fbAllTrace e (idx+1) (k+1) rest from rfl]
      rw [presses_append, presses_fbIter, ih]
      simp
      omega

theorem presses_fbUpTo (e : Env) :
    ∀ (i : Nat) (ts : List String) (idx k : Nat), i < ts.length →
      presses (fbUpToTrace e idx k ts i) = 2 * i + 1 := by
  intro i
  induction i with
  | zero =>
      intro ts idx k hlen
      rcases ts with _ | ⟨name, rest⟩
      · simp at hlen
      rw [show fbUpToTrace e idx k (name :: rest) 0 =
        fbHitTrace idx name (e.texts k) from rfl]
      rw [presses_fbHit]
  | succ i ih =>
      intro ts idx k hlen
      rcases ts with _ | ⟨name, rest⟩
      · simp at hlen
      rw [show fbUpToTrace e idx k (name :: rest) (i+1) =
        fbIterTrace idx name (e.texts k) ++ fbUpToTrace e (idx+1) (k+1) rest i from rfl]
      rw [presses_append, presses_fbIter, ih rest (idx+1) (k+1) (by simp at hlen; omega)]
      omega

theorem shotPaths_fbAll (e : Env) :
    ∀ (ts : List String) (idx k : Nat), shotPaths (fbAllTrace e idx k ts) = [] := by
  intro ts
  induction ts with
  | nil => intro idx k; rfl
  | cons name rest ih =>
      intro idx k
      rw [show fbAllTrace e idx k (name :: rest) =
        fbIterTrace idx name (e.texts k) ++ fbAllTrace e (idx+1) (k+1) rest from rfl]
      rw [shotPaths_append, ih]
      rfl

theorem shotPaths_fbUpTo (e : Env) :
    ∀ (i : Nat) (ts : List String) (idx k : Nat), i < ts.length →
      shotPaths (fbUpToTrace e idx k ts i) = ["verification/verification.png"] := by
  intro i
  induction i with
  | zero =>
      intro ts idx k hlen
      rcases ts with _ | ⟨name, rest⟩
      · simp at hlen
      rfl
  | succ i ih =>
      intro ts idx k hlen
      rcases ts with _ | ⟨name, rest⟩
      · simp at hlen
      rw [show fbUpToTrace e idx k (name :: rest) (i+1) =
        fbIterTrace idx name (e.texts k) ++ fbUpToTrace e (idx+1) (k+1) rest i from rfl]
      rw [shotPaths_append, ih rest (idx+1) (k+1) (by simp at hlen; omega)]
      rfl

theorem fb_abort_first (e : Env) (h0 : e.fails 0 = true) :
    presses (runTrace fbMain e) = 0 ∧
    Event.waitForSelector "#start-btn" none none ∉ runTrace fbMain e ∧
    Event.printMsg "Error: goto http://localhost:3000 raised" ∈ runTrace fbMain e ∧
    closes (runTrace fbMain e) = 1 := by
  cases h1 : e.fails 1 <;>
    simp [runTrace, fbMain, test_firewall_breach, mkSt, tryFin, tryExcept, bind_app,
      emit, stepE, describe, h0, h1, presses, closes]

/-! ## TraceBound lemmas -/

theorem tb_pure {α : Type} {P : Event → Prop} {a : α} :
    TraceBound P (pure a : M α) :=
  fun _ _ hev => Or.inl hev

theorem tb_emit {P : Event → Prop} {ev0 : Event} (h : P ev0) :
    TraceBound P (emit ev0) := by
  intro s ev hev
  rcases List.mem_cons.mp hev with heq | hmem
  · exact Or.inr (heq ▸ h)
  · exact Or.inl hmem

theorem tb_stepE {P : Event → Prop} {ev0 : Event} (h : P ev0) :
    TraceBound P (stepE ev0) := by
  intro s ev hev
  unfold stepE at hev
  by_cases hf : s.env.fails s.n
  · rw [if_pos hf] at hev
    exact Or.inl hev
  · rw [if_neg hf] at hev
    rcases List.mem_cons.mp hev with heq | hmem
    · exact Or.inr (heq ▸ h)
    · exact Or.inl hmem

theorem tb_readTextM {P : Event → Prop} {sel : String} (h : P (Event.readText sel)) :
    TraceBound P (readTextM sel) := by
  intro s ev hev
  unfold readTextM at hev
  by_cases hf : s.env.fails s.n
  · rw [if_pos hf] at hev
    exact Or.inl hev
  · rw [if_neg hf] at hev
    rcases List.mem_cons.mp hev with heq | hmem
    · exact Or.inr (heq ▸ h)
    · exact Or.inl hmem

theorem tb_checkVisible {P : Event → Prop} {sel : String} (h : P (Event.isVisible sel)) :
    TraceBound P (checkVisible sel) := by
  intro s ev hev
  rcases List.mem_cons.mp hev with heq | hmem
  · exact Or.inr (heq ▸ h)
  · exact Or.inl hmem

theorem tb_getConsole {P : Event → Prop} : TraceBound P getConsole :=
  fun _ _ hev => Or.inl hev

theorem tb_bind {α β : Type} {P : Event → Prop} {x : M α} {f : α → M β}
    (hx : TraceBound P x) (hf : ∀ a, TraceBound P (f a)) :
    TraceBound P (x >>= f) := by
  intro s ev hev
  rcases hxs : x s with ⟨o, s'⟩
  cases o with
  | ok a =>
      rw [bind_ok hxs] at hev
      rcases hf a s' ev hev with h | h
      · exact hx s ev (by rw [hxs]; exact h)
      · exact Or.inr h
  | raised m =>
      rw [bind_raise hxs] at hev
      exact hx s ev (by rw [hxs]; exact hev)

theorem tb_printEach {P : Event → Prop}
    (h : ∀ msg, P (Event.printMsg msg)) :
    ∀ ms : List String, TraceBound P (printEach ms) := by
  intro ms
  induction ms with
  | nil => exact tb_pure
  | cons m rest ih => exact tb_bind (tb_emit (h m)) (fun _ => ih)

theorem tb_tryExcept {α : Type} {P : Event → Prop} {body : M α} {hd : String → M α}
    (hb : TraceBound P body) (hh : ∀ m, TraceBound P (hd m)) :
    TraceBound P (tryExcept body hd) := by
  intro s ev hev
  rcases hbs : body s with ⟨o, s'⟩
  cases o with
  | ok a =>
      rw [tryExcept_okStep hbs] at hev
      exact hb s ev (by rw [hbs]; exact hev)
  | raised m =>
      rw [tryExcept_raiseStep hbs] at hev
      rcases hh m s' ev hev with h | h
      · exact hb s ev (by rw [hbs]; exact h)
      · exact Or.inr h

theorem tb_tryFin {α : Type} {P : Event → Prop} {body : M α} {fin : M Unit}
    (hb : TraceBound P body) (hf : TraceBound P fin) :
    TraceBound P (tryFin body fin) := by
  intro s ev hev
  rcases hbs : body s with ⟨o, s'⟩
  rcases hfs : fin s' with ⟨o2, s2⟩
  have hstep : ∀ h : ev ∈ s2.tr, ev ∈ s.tr ∨ P ev := by
    intro h
    rcases hf s' ev (by rw [hfs]; exact h) with h2 | h2
    · exact hb s ev (by rw [hbs]; exact h2)
    · exact Or.inr h2
  cases o with
  | ok a =>
      cases o2 with
      | ok u => rw [tryFin_okStep hbs hfs] at hev; exact hstep hev
      | raised m => rw [tryFin_okRaiseStep hbs hfs] at hev; exact hstep hev
  | raised m =>
      cases o2 with
      | ok u => rw [tryFin_raiseStep hbs hfs] at hev; exact hstep hev
      | raised m2 => rw [tryFin_raiseRaiseStep hbs hfs] at hev; exact hstep hev

theorem tb_ite {α : Type} {P : Event → Prop} {c : Prop} [Decidable c] {x y : M α}
    (hx : TraceBound P x) (hy : TraceBound P y) :
    TraceBound P (if c then x else y) := by
  by_cases hc : c
  · rwa [if_pos hc]
  · rwa [if_neg hc]

theorem tb_fbLoop {shots dirs : List String}
    (hshot : artifactOk shots dirs (Event.screenshot "verification/verification.png") = true) :
    ∀ (ts : List String) (idx : Nat),
      TraceBound (fun ev => artifactOk shots dirs ev = true) (fbLoop idx ts) := by
  intro ts
  induction ts with
  | nil => intro idx; exact tb_pure
  | cons name rest ih =>
      intro idx
      refine tb_bind (tb_emit rfl) (fun _ => ?_)
      refine tb_bind (tb_bind (tb_stepE rfl) (fun _ => tb_emit rfl)) (fun _ => ?_)
      refine tb_bind (tb_emit rfl) (fun _ => ?_)
      refine tb_bind (tb_readTextM rfl) (fun t => ?_)
      refine tb_bind (tb_emit rfl) (fun _ => ?_)
      refine tb_ite ?_ ?_
      · exact tb_bind (tb_emit rfl) (fun _ =>
          tb_bind (tb_emit rfl) (fun _ => tb_stepE hshot))
      · exact tb_bind (tb_bind (tb_stepE rfl) (fun _ => tb_emit rfl)) (fun _ =>
          tb_bind (tb_emit rfl) (fun _ => ih (idx + 1)))

theorem tb_fbMain :
    TraceBound
      (fun ev => artifactOk
        ["verification/verification.png", "/home/jules/verification/error.png"] [] ev = true)
      fbMain := by
  refine tb_tryFin ?_ (tb_emit rfl)
  refine tb_bind (tb_emit rfl) (fun _ => ?_)
  refine tb_bind (tb_emit rfl) (fun _ => ?_)
  refine tb_bind (tb_emit rfl) (fun _ => ?_)
  refine tb_tryFin ?_ (tb_emit rfl)
  refine tb_tryExcept ?_ (fun m => tb_bind (tb_emit rfl) (fun _ => tb_stepE (by decide)))
  refine tb_bind (tb_emit rfl) (fun _ => ?_)
  refine tb_bind (tb_stepE rfl) (fun _ => ?_)
  refine tb_bind (tb_emit rfl) (fun _ => ?_)
  refine tb_bind (tb_stepE rfl) (fun _ => ?_)
  refine tb_bind (tb_stepE rfl) (fun _ => ?_)
  refine tb_bind (tb_emit rfl) (fun _ => ?_)
  refine tb_bind (tb_emit rfl) (fun _ => ?_)
  exact tb_fbLoop (by decide) tracks 0

theorem tb_gameMain :
    TraceBound (fun ev => artifactOk ["verification/idle_state.png"] [] ev = true)
      gameMain := by
  refine tb_tryFin ?_ (tb_emit rfl)
  refine tb_bind (tb_emit rfl) (fun _ => ?_)
  refine tb_bind (tb_emit rfl) (fun _ => ?_)
  refine tb_tryFin ?_ (tb_emit rfl)
  refine tb_tryExcept ?_ (fun m => tb_emit rfl)
  refine tb_bind (tb_stepE rfl) (fun _ => ?_)
  refine tb_bind (tb_stepE rfl) (fun _ => ?_)
  refine tb_bind (tb_stepE rfl) (fun _ => ?_)
  exact tb_bind (tb_stepE (by decide)) (fun _ => tb_emit rfl)

theorem tb_lcd :
    TraceBound
      (fun ev => artifactOk ["verification/lcd_verification_v3.png"] ["verification"] ev = true)
      verify_lcd := by
  refine tb_bind (tb_emit rfl) (fun _ => ?_)
  refine tb_tryFin ?_ (tb_emit rfl)
  refine tb_bind (tb_emit rfl) (fun _ => ?_)
  refine tb_bind (tb_emit rfl) (fun _ => ?_)
  refine tb_bind (tb_emit rfl) (fun _ => ?_)
  refine tb_bind (tb_emit rfl) (fun _ => ?_)
  refine tb_bind (tb_stepE rfl) (fun _ => ?_)
  refine tb_bind (tb_emit rfl) (fun _ => ?_)
  refine tb_bind (tb_emit rfl) (fun _ => ?_)
  refine tb_bind (tb_emit rfl) (fun _ => ?_)
  refine tb_bind
    (tb_tryExcept
      (tb_bind (tb_stepE rfl) (fun _ =>
        tb_bind (tb_stepE rfl) (fun _ => tb_emit rfl)))
      (fun m => tb_emit rfl)) (fun _ => ?_)
  refine tb_bind (tb_emit rfl) (fun _ => ?_)
  refine tb_bind (tb_emit (by decide)) (fun _ => ?_)
  refine tb_bind (tb_emit rfl) (fun _ => ?_)
  refine tb_bind (tb_stepE (by decide)) (fun _ => ?_)
  exact tb_bind (tb_emit rfl) (fun _ => tb_emit rfl)

theorem tb_reelsRun :
    TraceBound (fun ev => artifactOk ["verification/reels.png"] [] ev = true)
      reelsRun := by
  have hrest : TraceBound (fun ev => artifactOk ["verification/reels.png"] [] ev = true)
      (do
        stepE (Event.waitForTimeout 5000)
        emit (Event.printMsg "Console logs:")
        let ms ← getConsole
        printEach ms
        stepE (Event.screenshot "verification/reels.png")) :=
    tb_bind (tb_stepE rfl) (fun _ =>
      tb_bind (tb_emit rfl) (fun _ =>
        tb_bind tb_getConsole (fun ms =>
          tb_bind (tb_printEach (show ∀ msg, artifactOk ["verification/reels.png"] [] (Event.printMsg msg) = true from fun _ => rfl) ms) (fun _ =>
            tb_stepE (by decide)))))
  refine tb_tryFin ?_ (tb_emit rfl)
  refine tb_bind (tb_emit rfl) (fun _ => ?_)
  refine tb_bind (tb_emit rfl) (fun _ => ?_)
  refine tb_bind (tb_emit rfl) (fun _ => ?_)
  refine tb_tryFin ?_ (tb_emit rfl)
  refine tb_tryExcept ?_ (fun m => tb_emit rfl)
  refine tb_bind (tb_stepE rfl) (fun _ => ?_)
  refine tb_bind (tb_checkVisible rfl) (fun v => ?_)
  exact tb_ite (tb_bind (tb_stepE rfl) (fun _ => hrest))
    (tb_bind tb_pure (fun _ => hrest))

theorem tb_slotMain :
    TraceBound (fun ev => artifactOk ["verification/slot_idle.png"] [] ev = true)
      slotMain := by
  refine tb_tryFin ?_ (tb_emit rfl)
  refine tb_bind (tb_emit rfl) (fun _ => ?_)
  refine tb_bind (tb_emit rfl) (fun _ => ?_)
  refine tb_bind (tb_stepE rfl) (fun _ => ?_)
  refine tb_bind (tb_emit rfl) (fun _ => ?_)
  exact tb_bind (tb_stepE (by decide)) (fun _ => tb_emit rfl)

theorem game_run_closed (e : Env) (hf : ∀ n, e.fails n = false) :
    runTrace gameMain e = gameOkTrace ∧ runOutcome gameMain e = Outcome.ok () := by
  simp [runTrace, runOutcome, gameMain, verify_lighting, mkSt, tryFin, tryExcept,
    bind_app, emit, stepE, hf, gameOkTrace]

/-! ## Claims -/

/-- C1 counterexample: in `verify_lcd.py` a failing `goto` aborts the run
before `browser.close()` is ever reached — the session is closed zero
times, not exactly once, so the session is not released via a
guaranteed-cleanup block in every script. -/
theorem C1_cex :
    closes (runTrace verify_lcd envGotoFail) = 0 ∧
    runOutcome verify_lcd envGotoFail ≠ Outcome.ok () := by
  constructor
  · decide
  · decide

/-- C1 (amended): in `verify_firewall_breach.py`, `verify_game.py` and
`verify_reels.py` the session is closed exactly once for every outcome,
via a `finally` block; in `verify_lcd.py` and `verify_slot.py` the close
is a plain trailing statement, so the session is closed at most once,
and exactly once only when no step fails. -/
theorem C1_amended : ∀ e : Env,
    closes (runTrace fbMain e) = 1 ∧
    closes (runTrace gameMain e) = 1 ∧
    closes (runTrace reelsRun e) = 1 ∧
    closes (runTrace verify_lcd e) ≤ 1 ∧
    closes (runTrace slotMain e) ≤ 1 ∧
    ((∀ n, e.fails n = false) →
      closes (runTrace verify_lcd e) = 1 ∧ closes (runTrace slotMain e) = 1) := by
  intro e
  refine ⟨?_, ?_, ?_, ?_, ?_, ?_⟩
  · rw [runTrace, closes_reverse]
    simpa [mkSt, closes] using ca_fbMain (mkSt e)
  · rw [runTrace, closes_reverse]
    simpa [mkSt, closes] using ca_gameMain (mkSt e)
  · rw [runTrace, closes_reverse]
    simpa [mkSt, closes] using ca_reelsRun (mkSt e)
  · rw [runTrace, closes_reverse]
    simpa [mkSt, closes] using cle_lcd (mkSt e)
  · rw [runTrace, closes_reverse]
    simpa [mkSt, closes] using cle_slot (mkSt e)
  · intro hf
    obtain ⟨ht1, -⟩ := lcd_run_closed e hf
    obtain ⟨ht2, -⟩ := slot_run_closed e hf
    rw [ht1, ht2]
    exact ⟨rfl, rfl⟩

/-- C1 witness: a fault-free run closes the session exactly once in all
of `verify_lcd.py`, `verify_slot.py` and `verify_firewall_breach.py`. -/
theorem C1_witness :
    closes (runTrace verify_lcd envMiss) = 1 ∧
    closes (runTrace slotMain envMiss) = 1 ∧
    closes (runTrace fbMain envMiss) = 1 := by
  have h := C1_amended envMiss
  exact ⟨(h.2.2.2.2.2 (fun _ => rfl)).1, (h.2.2.2.2.2 (fun _ => rfl)).2, h.1⟩

/-- C2 counterexample: `verify_slot.py` has no error boundary at all and
`verify_lcd.py` guards only the start-click block: in both, a failing
`goto` escapes the script as an unhandled exception instead of being
caught and logged. -/
theorem C2_cex :
    runOutcome slotMain envGotoFail =
      Outcome.raised "goto http://localhost:5173 raised" ∧
    runOutcome verify_lcd envGotoFail =
      Outcome.raised "goto http://localhost:5173 raised" := by
  constructor
  · decide
  · decide

/-- C2 (amended): in `verify_game.py` and `verify_reels.py` every step
failure is caught by the single catch-all boundary and the script exits
normally; the other scripts can let a failure escape. -/
theorem C2_amended : ∀ e : Env,
    runOutcome gameMain e = Outcome.ok () ∧
    runOutcome reelsRun e = Outcome.ok () := by
  intro e
  constructor
  · obtain ⟨a, ha⟩ := nr_gameMain (mkSt e)
    cases a
    exact ha
  · obtain ⟨a, ha⟩ := nr_reelsRun (mkSt e)
    cases a
    exact ha

/-- C3 counterexample: with the target label visible from the very first
HUD read (index 0), the loop performs a single toggle-in (one key press)
before reaching the target — not the `0 + 1 = 1` complete
toggle-in/toggle-out pairs (two presses) the claim requires. -/
theorem C3_cex :
    hudHit envHit0 0 = true ∧
    presses (runTrace fbMain envHit0) = 1 ∧
    ¬ 2 * (0 + 1) ≤ presses (runTrace fbMain envHit0) := by
  refine ⟨?_, ?_, ?_⟩
  · decide
  · decide
  · decide

/-- C3 (amended): if the target label first appears at index `i`, the
loop performs exactly `i` toggle-in/toggle-out pairs (for the modes
before `i`) plus one final unpaired toggle-in for mode `i` — `2*i + 1`
key presses in total — and no toggles occur for modes after index `i`. -/
theorem C3_thm (e : Env) (i : Nat) (hf : ∀ n, e.fails n = false)
    (hlen : i < tracks.length)
    (hmiss : ∀ j, j < i → hudHit e j = false)
    (hhit : hudHit e i = true) :
    presses (runTrace fbMain e) = 2 * i + 1 := by
  obtain ⟨ht, -⟩ := fbMain_match e i hf hlen hmiss hhit
  rw [ht]
  unfold fbMatchRunTrace
  rw [presses_append, presses_append, presses_fbPrefix,
    presses_fbUpTo e i tracks 0 0 hlen]
  simp [presses]

/-- C3 witness: with the first match at index 2 the run performs exactly
`2*2 + 1 = 5` key presses. -/
theorem C3_witness : presses (runTrace fbMain envHit2) = 2 * 2 + 1 :=
  C3_thm envHit2 2 (fun _ => rfl) (by decide) (by decide) (by decide)

/-- C4 counterexample: in `verify_lcd.py` the guarded `wait_for_selector`
step fails, yet the later steps still execute — the screenshot is taken,
the local handler logs the error, and the run ends normally — refuting
the claim that steps `k+1..` never execute after a failure at step `k`. -/
theorem C4_cex :
    Event.screenshot "verification/lcd_verification_v3.png" ∈
      runTrace verify_lcd envWaitFail ∧
    Event.printMsg "Error clicking start: wait_for_selector #start-btn raised" ∈
      runTrace verify_lcd envWaitFail ∧
    runOutcome verify_lcd envWaitFail = Outcome.ok () := by
  refine ⟨?_, ?_, ?_⟩
  · decide
  · decide
  · decide

/-- C4 (amended): a raising step aborts the rest of the monadic sequence
it belongs to (first conjunct, for every sequence); in
`verify_firewall_breach.py` a failure of the first step skips every later
step, logs the error, and still closes the session exactly once (second
conjunct); but in `verify_lcd.py` the start-click block is guarded
separately, so a failure there is logged and execution continues. -/
theorem C4_thm :
    (∀ (α β : Type) (x : M α) (f : α → M β) (s : St) (m : String) (s' : St),
      x s = (Outcome.raised m, s') → (x >>= f) s = (Outcome.raised m, s')) ∧
    (∀ e : Env, e.fails 0 = true →
      presses (runTrace fbMain e) = 0 ∧
      Event.waitForSelector "#start-btn" none none ∉ runTrace fbMain e ∧
      Event.printMsg "Error: goto http://localhost:3000 raised" ∈ runTrace fbMain e ∧
      closes (runTrace fbMain e) = 1) :=
  ⟨fun _ _ _ _ _ _ _ h => bind_raise h, fb_abort_first⟩

/-- C4 witness: a failing `goto` as first step propagates through the
sequencing (skipping the continuation) and, in the firewall script,
leaves no key press in the trace. -/
theorem C4_witness :
    (stepE (Event.goto "http://localhost:3000") >>= fun _ =>
        emit Event.playwrightStop) (mkSt envGotoFail) =
      (Outcome.raised "goto http://localhost:3000 raised",
        ⟨envGotoFail, 1, 0, []⟩) ∧
    presses (runTrace fbMain envGotoFail) = 0 :=
  ⟨C4_thm.1 Unit Unit (stepE (Event.goto "http://localhost:3000"))
      (fun _ => emit Event.playwrightStop) (mkSt envGotoFail)
      "goto http://localhost:3000 raised" ⟨envGotoFail, 1, 0, []⟩ rfl,
    (C4_thm.2 envGotoFail rfl).1⟩

/-- C5: first match wins — when the target label first appears at index
`i` (and no step fails), the whole-run trace is exactly the prefix, `i`
full toggle-in/toggle-out iterations, then the match iteration which
holds the mode active (a single unpaired toggle-in), sleeps 5 s and
captures the screenshot, and then only the cleanup events: the iteration
stops and the remaining modes are skipped.  In particular the run ends
normally, the target screenshot is the only one, and exactly `2*i + 1`
key presses occur. -/
theorem C5_thm (e : Env) (i : Nat) (hf : ∀ n, e.fails n = false)
    (hlen : i < tracks.length)
    (hmiss : ∀ j, j < i → hudHit e j = false)
    (hhit : hudHit e i = true) :
    runTrace fbMain e = fbMatchRunTrace e i ∧
    runOutcome fbMain e = Outcome.ok () ∧
    shotPaths (runTrace fbMain e) = ["verification/verification.png"] ∧
    presses (runTrace fbMain e) = 2 * i + 1 := by
  obtain ⟨ht, ho⟩ := fbMain_match e i hf hlen hmiss hhit
  refine ⟨ht, ho, ?_, ?_⟩
  · rw [ht]
    unfold fbMatchRunTrace
    rw [shotPaths_append, shotPaths_append, shotPaths_fbUpTo e i tracks 0 0 hlen]
    rfl
  · rw [ht]
    unfold fbMatchRunTrace
    rw [presses_append, presses_append, presses_fbPrefix,
      presses_fbUpTo e i tracks 0 0 hlen]
    simp [presses]

/-- C5 witness: with the first match at index 2 the run trace equals the
expected match trace, ends normally, captures exactly the target
screenshot, and performs 5 key presses. -/
theorem C5_witness :
    runTrace fbMain envHit2 = fbMatchRunTrace envHit2 2 ∧
    runOutcome fbMain envHit2 = Outcome.ok () ∧
    shotPaths (runTrace fbMain envHit2) = ["verification/verification.png"] ∧
    presses (runTrace fbMain envHit2) = 2 * 2 + 1 :=
  C5_thm envHit2 2 (fun _ => rfl) (by decide) (by decide) (by decide)

/-- C6: if no HUD read ever contains the target label (and no step
fails), the loop performs exactly `N = tracks.length` toggle-in/
toggle-out pairs — `2*N` key presses — and no screenshot at all is
produced. -/
theorem C6_thm (e : Env) (hf : ∀ n, e.fails n = false)
    (hmiss : ∀ j, j < tracks.length → hudHit e j = false) :
    presses (runTrace fbMain e) = 2 * tracks.length ∧
    shotPaths (runTrace fbMain e) = [] := by
  obtain ⟨ht, -⟩ := fbMain_nomatch e hf hmiss
  rw [ht]
  unfold fbNoMatchRunTrace
  constructor
  · rw [presses_append, presses_append, presses_fbPrefix, presses_fbAll]
    simp [presses]
  · rw [shotPaths_append, shotPaths_append, shotPaths_fbAll]
    rfl

/-- C6 witness: a run that never sees the target label performs exactly
22 key presses and produces no screenshot. -/
theorem C6_witness :
    presses (runTrace fbMain envMiss) = 2 * tracks.length ∧
    shotPaths (runTrace fbMain envMiss) = [] :=
  C6_thm envMiss (fun _ => rfl) (by decide)

/-- C7 counterexample: two environments that agree on step failures, HUD
texts and console messages — differing only in element visibility —
produce different step sequences in `verify_reels.py`: that script
branches on the visibility of `#start-btn`, not on the HUD text, so
"no branching beyond one HUD-text containment check" fails. -/
theorem C7_cex :
    envMiss.fails = envMissVis.fails ∧
    envMiss.texts = envMissVis.texts ∧
    envMiss.consoleMsgs = envMissVis.consoleMsgs ∧
    runTrace reelsRun envMiss ≠ runTrace reelsRun envMissVis := by
  refine ⟨rfl, rfl, rfl, ?_⟩
  decide

/-- C7 (amended): steps execute strictly sequentially; on fault-free runs
`verify_lcd.py`, `verify_slot.py` and `verify_game.py` produce one fixed
step sequence with no branching at all, while `verify_reels.py` has
exactly one conditional — the visibility check of `#start-btn` — its
trace being a function of that check's outcome (and the collected console
messages).  The HUD-text containment check of the mode-scanning script is
its only conditional (see the C5/C6 theorems). -/
theorem C7_thm (e : Env) (hf : ∀ n, e.fails n = false) :
    runTrace verify_lcd e = lcdOkTrace ∧
    runTrace slotMain e = slotOkTrace ∧
    runTrace gameMain e = gameOkTrace ∧
    runTrace reelsRun e = reelsTrace (e.visible "#start-btn") e.consoleMsgs :=
  ⟨(lcd_run_closed e hf).1, (slot_run_closed e hf).1, (game_run_closed e hf).1,
    (reels_run_closed e hf).1⟩

/-- C7 witness: on a fault-free run with the button visible, all four
loop-free scripts produce exactly their expected step sequences. -/
theorem C7_witness :
    runTrace verify_lcd envMissVis = lcdOkTrace ∧
    runTrace slotMain envMissVis = slotOkTrace ∧
    runTrace gameMain envMissVis = gameOkTrace ∧
    runTrace reelsRun envMissVis =
      reelsTrace (envMissVis.visible "#start-btn") envMissVis.consoleMsgs :=
  C7_thm envMissVis (fun _ => rfl)

theorem shot_allowed {shots dirs : List String} {m : M Unit}
    (tb : TraceBound (fun ev => artifactOk shots dirs ev = true) m)
    (e : Env) (p : String) (h : Event.screenshot p ∈ runTrace m e) :
    p ∈ shots := by
  have h2 := tb (mkSt e) (Event.screenshot p) (List.mem_reverse.mp h)
  rcases h2 with h2 | h2
  · simp [mkSt] at h2
  · simpa [artifactOk] using h2

theorem dir_allowed {shots dirs : List String} {m : M Unit}
    (tb : TraceBound (fun ev => artifactOk shots dirs ev = true) m)
    (e : Env) (d : String) (h : Event.makedirs d ∈ runTrace m e) :
    d ∈ dirs := by
  have h2 := tb (mkSt e) (Event.makedirs d) (List.mem_reverse.mp h)
  rcases h2 with h2 | h2
  · simp [mkSt] at h2
  · simpa [artifactOk] using h2

/-- C8 counterexample: a failed run of `verify_firewall_breach.py`
persists exactly one file, the failure screenshot, and it is written to
the absolute path `/home/jules/verification/error.png`, which is not a
relative path under the `verification/` directory. -/
theorem C8_cex :
    shotPaths (runTrace fbMain envGotoFail) = ["/home/jules/verification/error.png"] ∧
    underVerifDir "/home/jules/verification/error.png" = false := by
  constructor
  · decide
  · decide

/-- C8 (amended): every screenshot any script writes is a `.png` at a
fixed relative path under `verification/`, except that the error handler
of `verify_firewall_breach.py` writes its best-effort failure screenshot
to the absolute path `/home/jules/verification/error.png`; the only
directory any script creates is `verification`. -/
theorem C8_thm :
    (∀ (e : Env) (p : String), Event.screenshot p ∈ runTrace fbMain e →
      (underVerifDir p = true ∧ pngExt p = true) ∨
        p = "/home/jules/verification/error.png") ∧
    (∀ (e : Env) (p : String), Event.screenshot p ∈ runTrace gameMain e →
      underVerifDir p = true ∧ pngExt p = true) ∧
    (∀ (e : Env) (p : String), Event.screenshot p ∈ runTrace verify_lcd e →
      underVerifDir p = true ∧ pngExt p = true) ∧
    (∀ (e : Env) (p : String), Event.screenshot p ∈ runTrace reelsRun e →
      underVerifDir p = true ∧ pngExt p = true) ∧
    (∀ (e : Env) (p : String), Event.screenshot p ∈ runTrace slotMain e →
      underVerifDir p = true ∧ pngExt p = true) ∧
    (∀ (e : Env) (d : String),
      (Event.makedirs d ∈ runTrace fbMain e ∨
       Event.makedirs d ∈ runTrace gameMain e ∨
       Event.makedirs d ∈ runTrace verify_lcd e ∨
       Event.makedirs d ∈ runTrace reelsRun e ∨
       Event.makedirs d ∈ runTrace slotMain e) → d = "verification") := by
  refine ⟨?_, ?_, ?_, ?_, ?_, ?_⟩
  · intro e p h
    have := shot_allowed tb_fbMain e p h
    simp only [List.mem_cons, List.not_mem_nil, or_false] at this
    rcases this with rfl | rfl
    · exact Or.inl (by decide)
    · exact Or.inr rfl
  · intro e p h
    have := shot_allowed tb_gameMain e p h
    simp only [List.mem_cons, List.not_mem_nil, or_false] at this
    rcases this with rfl
    exact ⟨by decide, by decide⟩
  · intro e p h
    have := shot_allowed tb_lcd e p h
    simp only [List.mem_cons, List.not_mem_nil, or_false] at this
    rcases this with rfl
    exact ⟨by decide, by decide⟩
  · intro e p h
    have := shot_allowed tb_reelsRun e p h
    simp only [List.mem_cons, List.not_mem_nil, or_false] at this
    rcases this with rfl
    exact ⟨by decide, by decide⟩
  · intro e p h
    have := shot_allowed tb_slotMain e p h
    simp only [List.mem_cons, List.not_mem_nil, or_false] at this
    rcases this with rfl
    exact ⟨by decide, by decide⟩
  · intro e d h
    rcases h with h | h | h | h | h
    · have := dir_allowed tb_fbMain e d h
      simp at this
    · have := dir_allowed tb_gameMain e d h
      simp at this
    · have := dir_allowed tb_lcd e d h
      simpa using this
    · have := dir_allowed tb_reelsRun e d h
      simp at this
    · have := dir_allowed tb_slotMain e d h
      simp at this

/-- C8 witness: the slot script's screenshot on a fault-free run is a
PNG under `verification/`, and the only directory `verify_lcd.py`
creates is `verification`. -/
theorem C8_witness :
    (underVerifDir "verification/slot_idle.png" = true ∧
      pngExt "verification/slot_idle.png" = true) ∧
    "verification" = "verification" := by
  constructor
  · exact C8_thm.2.2.2.2.1 envMiss "verification/slot_idle.png" (by decide)
  · exact C8_thm.2.2.2.2.2 envMiss "verification" (Or.inr (Or.inr (Or.inl (by decide))))

/-- C9: in the spec-modelled filesystem semantics, `capture_screenshot`
creates every missing parent directory of the target path before
writing, and a second capture to the same path succeeds and overwrites
the stored image instead of raising (the operation is total). -/
theorem C9_thm :
    ∀ (path : List String) (img img2 : Nat) (fs : FS),
      (∀ d, d ∈ prefixesOf path.dropLast →
        d ∈ (capture_screenshot path img fs).dirs) ∧
      readFile (capture_screenshot path img fs) path = some img ∧
      readFile (capture_screenshot path img2 (capture_screenshot path img fs)) path
        = some img2 := by
  intro path img img2 fs
  refine ⟨fun d hd => ?_, ?_, ?_⟩
  · simp [capture_screenshot]
    exact Or.inl hd
  · simp [readFile, capture_screenshot]
  · simp [readFile, capture_screenshot]

/-- C9 witness: capturing twice to `verification/x.png` on an empty
filesystem leaves the second image and the created parent directory. -/
theorem C9_witness :
    readFile
      (capture_screenshot ["verification", "x.png"] 2
        (capture_screenshot ["verification", "x.png"] 1 ⟨[], []⟩))
      ["verification", "x.png"] = some 2 ∧
    ["verification"] ∈
      (capture_screenshot ["verification", "x.png"] 1 (FS.mk [] [])).dirs := by
  constructor
  · exact (C9_thm ["verification", "x.png"] 1 2 ⟨[], []⟩).2.2
  · exact (C9_thm ["verification", "x.png"] 1 9 ⟨[], []⟩).1 ["verification"] (by decide)

/-- C10: in `verify_reels.py`, when `#start-btn` is not visible (and no
step fails) the click is skipped without any error: the run still
performs the 5 s wait, prints every collected console message, captures
the screenshot, and exits normally; the screenshot is produced whether
or not the button was visible. -/
theorem C10_thm (e : Env) (hf : ∀ n, e.fails n = false) :
    (e.visible "#start-btn" = false →
      Event.click "#start-btn" false ∉ runTrace reelsRun e ∧
      Event.waitForTimeout 5000 ∈ runTrace reelsRun e ∧
      (∀ msg ∈ e.consoleMsgs, Event.printMsg msg ∈ runTrace reelsRun e) ∧
      Event.screenshot "verification/reels.png" ∈ runTrace reelsRun e ∧
      runOutcome reelsRun e = Outcome.ok ()) ∧
    Event.screenshot "verification/reels.png" ∈ runTrace reelsRun e := by
  obtain ⟨ht, ho⟩ := reels_run_closed e hf
  constructor
  · intro hv
    rw [ht, hv]
    refine ⟨?_, ?_, ?_, ?_, ho⟩
    · simp [reelsTrace]
    · simp [reelsTrace]
    · intro msg hm
      have hmem : Event.printMsg msg ∈ e.consoleMsgs.map Event.printMsg :=
        List.mem_map_of_mem _ hm
      simp [reelsTrace, List.mem_append, hmem]
    · simp [reelsTrace]
  · rw [ht]
    cases e.visible "#start-btn" <;> simp [reelsTrace]

/-- C10 witness: with the button hidden and two console messages, the
run skips the click, prints the messages, and captures the screenshot. -/
theorem C10_witness :
    Event.click "#start-btn" false ∉ runTrace reelsRun envReelsHidden ∧
    Event.printMsg "reels ready" ∈ runTrace reelsRun envReelsHidden ∧
    Event.screenshot "verification/reels.png" ∈ runTrace reelsRun envReelsHidden := by
  obtain ⟨h1, h2⟩ := C10_thm envReelsHidden (fun _ => rfl)
  obtain ⟨ha, hb, hc, hd, he⟩ := h1 rfl
  exact ⟨ha, hc "reels ready" (by decide), hd⟩
